import Mathlib

/-!
Verification of the chain-proxy upstream selection pipeline.

This file gives a shallow embedding of the selection, rewriting, metrics,
health-validator and unify-demux logic of the proxy, translated from the
Rust sources:

  * src/app/proxy_base.rs        (trait ProxyBase: upstream_peer, metrics,
                                  get_clusters_by_special_method)
  * src/app/node_proxy_app.rs    (chain-mode get_eligible_clusters)
  * src/app/common_proxy_app.rs  (common-mode get_eligible_clusters)
  * src/app/unify_proxy_app.rs   (UnifyProxyApp::upstream_peer)
  * src/app/config.rs            (DEFAULT_PEER_OPTIONS)
  * src/service/chain_health_check.rs (eth_validator)
  * src/service/proxy.rs         (ChainProxyConfig, SpecialMethodConfig)
  * src/config.rs                (NodeState, UnifyProxyConfig)
  * src/metrics.rs               (inc_proxy_result_counter)

Rust HashMaps are represented as association lists (List (key, value));
lookup is List.lookup.  The HashMap<i32, Vec<&Config>> built by
entry(priority).or_insert_with(Vec::new).push(config) is represented by
the flat list it was built from: the bucket of priority p is the sublist
of elements whose priority equals p, in insertion order, and the key set
is the set of priorities that occur.  Fallible Rust code is modelled with
Except / Option; a Rust panic (unwrap of None / out-of-bounds slice) is
modelled with an explicit panicked constructor or with the Option value
none, as noted at each definition.
-/

namespace ChainProxy

/-- One upstream node, as in src/service/proxy.rs, struct ChainProxyConfig. -/
structure ChainProxyConfig where
  proxy_addr : String
  proxy_tls : Bool
  proxy_hostname : String
  proxy_uri : String
  /-- i32 in the source; config-file values, no overflow concerns. -/
  priority : Int
  path : String
  method : String
  request_body : Option (List Nat)
  interval : Nat
  block_gap : Nat
  chain_type : String
  log_request_detail : Bool
  username : Option String
  password : Option String
  custom_headers : Option (List (String × String))
deriving DecidableEq

/-- src/service/proxy.rs, struct SpecialMethodConfig. -/
structure SpecialMethodConfig where
  method_name : String
  nodes : List ChainProxyConfig
deriving DecidableEq

/-- src/config.rs, struct NodeState (common-mode shared health state). -/
structure NodeState where
  node_name : String
  /-- host name to health status; HashMap<String, bool> as an association list. -/
  health_status : List (String × Bool)
deriving DecidableEq

/-- Terminal selection errors raised via Error::e_explain(Custom(...), "proxy error"). -/
inductive SelectError where
  | noTipYet
  | noEligibleCluster
  | clusterMissing
deriving DecidableEq

/-- The static message attached to each Custom(...) selection error. -/
def SelectError.message : SelectError → String
  | .noTipYet => "No block number found, maybe health check is unavailable or system is starting"
  | .noEligibleCluster => "No eligible cluster found"
  | .clusterMissing => "Cluster not found"

/-! ### Rust Iterator::max over a list (keys().max() / values().max()) -/

/-- Rust Iterator::max: none on an empty iterator, otherwise the greatest element. -/
def listMax {α : Type} [LinearOrder α] : List α → Option α
  | [] => none
  | x :: xs => some (xs.foldl max x)

/-! ### Header values

A Rust http::HeaderValue is an arbitrary byte string; HeaderValue::to_str
succeeds only when every byte is visible ASCII.  Bytes are modelled as Nat. -/

/-- One byte is representable by HeaderValue::to_str. -/
def visibleAscii (b : Nat) : Bool := 32 ≤ b && b ≤ 126

/-- HeaderValue::to_str: some decoded string when all bytes are visible ASCII, none otherwise. -/
def headerToStr (bytes : List Nat) : Option String :=
  if bytes.all visibleAscii then some (String.mk (bytes.map Char.ofNat)) else none

/-! ### Special-method override
src/app/proxy_base.rs, get_clusters_by_special_method. -/

/-- Outcome of get_clusters_by_special_method.  fallthrough models the Rust
None (continue with the normal eligibility filter); panicked models the
unwrap() panic when HeaderValue::to_str fails on the header value. -/
inductive SpecialLookup where
  | fallthrough
  | panicked
  | override (nodes : List ChainProxyConfig)
deriving DecidableEq

/-- src/app/proxy_base.rs lines 138-156: if the special-method list is
non-empty and the request carries X-Proxy-Jsonrpc-Method, decode the header
value (unwrap: panic on undecodable bytes) and return the node list of the
first route whose method_name equals the decoded value; otherwise None. -/
def getClustersBySpecialMethod (specials : List SpecialMethodConfig)
    (header : Option (List Nat)) : SpecialLookup :=
  match header with
  | none => .fallthrough
  | some bytes =>
    if specials.isEmpty then .fallthrough
    else
      match headerToStr bytes with
      | none => .panicked
      | some m =>
        match specials.find? (fun cfg => cfg.method_name = m) with
        | some cfg => .override cfg.nodes
        | none => .fallthrough

/-! ### Chain-mode eligibility
src/app/node_proxy_app.rs, NodeProxyApp::get_eligible_clusters. -/

/-- block_numbers.values().max().unwrap_or(&0). -/
def maxBlockNumber (tips : List (String × Nat)) : Nat :=
  (listMax (tips.map Prod.snd)).getD 0

/-- host_configs[0].block_gap.  The service factory builds every listener from a
non-empty node list (it indexes host_configs[0] at startup), so the empty case
is unreachable; it is given the harmless default 0. -/
def chainBlockGap (hostConfigs : List ChainProxyConfig) : Nat :=
  match hostConfigs with
  | [] => 0
  | c :: _ => c.block_gap

/-- The block-gap filter applied to one node: keep it when its tip is present in
the copied map and max_block_number - tip <= block_range (lines 100-122). -/
def tipEligible (tips : List (String × Nat)) (maxBN blockRange : Nat)
    (c : ChainProxyConfig) : Bool :=
  match tips.lookup c.proxy_uri with
  | none => false
  | some t => decide (maxBN - t ≤ blockRange)

/-- Chain-mode eligibility after the special-method gate (lines 80-129):
copy the tips map, compute the max; 0 means NoTipYet; otherwise filter the
configured nodes by the block gap; an empty result is NoEligibleCluster. -/
def getEligibleClustersChain (hostConfigs : List ChainProxyConfig)
    (tips : List (String × Nat)) : Except SelectError (List ChainProxyConfig) :=
  let maxBN := maxBlockNumber tips
  if maxBN = 0 then .error .noTipYet
  else
    let blockRange := chainBlockGap hostConfigs
    let eligible := hostConfigs.filter (tipEligible tips maxBN blockRange)
    if eligible.isEmpty then .error .noEligibleCluster
    else .ok eligible

/-- NodeProxyApp::get_eligible_clusters including the special-method gate.
none models the to_str().unwrap() panic inside the gate. -/
def chainEligible (specials : List SpecialMethodConfig) (header : Option (List Nat))
    (hostConfigs : List ChainProxyConfig) (tips : List (String × Nat)) :
    Option (Except SelectError (List ChainProxyConfig)) :=
  match getClustersBySpecialMethod specials header with
  | .panicked => none
  | .override nodes => some (.ok nodes)
  | .fallthrough => some (getEligibleClustersChain hostConfigs tips)

/-! ### Common-mode eligibility
src/app/common_proxy_app.rs, CommonProxyApp::get_eligible_clusters. -/

/-- Common-mode eligibility after the special-method gate (lines 73-84): every
configured node is bucketed by priority; only an empty configuration errors.
The shared NodeState is not consulted here (CommonProxyApp holds no reference
to it). -/
def getEligibleClustersCommon (hostConfigs : List ChainProxyConfig) :
    Except SelectError (List ChainProxyConfig) :=
  if hostConfigs.isEmpty then .error .noEligibleCluster
  else .ok hostConfigs

/-- CommonProxyApp::get_eligible_clusters including the special-method gate. -/
def commonEligible (specials : List SpecialMethodConfig) (header : Option (List Nat))
    (hostConfigs : List ChainProxyConfig) :
    Option (Except SelectError (List ChainProxyConfig)) :=
  match getClustersBySpecialMethod specials header with
  | .panicked => none
  | .override nodes => some (.ok nodes)
  | .fallthrough => some (getEligibleClustersCommon hostConfigs)

/-- Definition following the specification words, for comparison with the code:
"eligible set is every node whose NodeState.healthy[node] == true". -/
def specEligibleCommon (hostConfigs : List ChainProxyConfig) (state : NodeState) :
    List ChainProxyConfig :=
  hostConfigs.filter (fun c => state.health_status.lookup c.proxy_uri = some true)

/-! ### Node selection from the eligible buckets
src/app/proxy_base.rs, ProxyBase::upstream_peer lines 36-51. -/

/-- keys().max().unwrap(); bucket = map[max]; then index 0 when the bucket is a
singleton, otherwise SliceRandom::choose.  The random choice is modelled by an
arbitrary oracle: the chosen index is oracle % bucket.length, so a theorem
quantified over the oracle covers every possible random outcome.  The result
none models the unwrap() panic on an empty bucket map. -/
def selectNode (eligible : List ChainProxyConfig) (oracle : Nat) :
    Option ChainProxyConfig :=
  match listMax (eligible.map (fun c => c.priority)) with
  | none => none
  | some maxP =>
    let bucket := eligible.filter (fun c => decide (c.priority = maxP))
    if bucket.length = 1 then bucket.head?
    else bucket[oracle % bucket.length]?

/-! ### URI rewrite
src/app/proxy_base.rs, ProxyBase::upstream_peer lines 70-88. -/

/-- The new request URI as a string, before req.set_uri parses it.
jsonrpc: the node's proxy_uri replaces the URI entirely.  Any other protocol
(http, grpc): proxy_uri when the incoming path is empty or "/", otherwise
proxy_uri concatenated with the incoming path; then the incoming query string,
when present, is re-appended as ?query. -/
def rewriteUri (protocol proxy_uri incomingPath : String)
    (incomingQuery : Option String) : String :=
  if protocol = "jsonrpc" then proxy_uri
  else
    let newUri := if incomingPath = "" ∨ incomingPath = "/" then proxy_uri
                  else proxy_uri ++ incomingPath
    match incomingQuery with
    | some q => newUri ++ "?" ++ q
    | none => newUri

/-! ### Metrics hook
src/app/proxy_base.rs, ProxyBase::metrics lines 111-129, and
src/metrics.rs, inc_proxy_result_counter. -/

/-- One label tuple of a proxy_result_counter increment. -/
structure CounterInc where
  chain : String
  host : String
  code : String
  method : String
deriving DecidableEq

/-- The increments performed by one ProxyBase::metrics call (the runtime invokes
logging, and hence metrics, exactly once when a request terminates).
response_written().map_or(0, |resp| resp.status) supplies the code; the
increment is guarded by the presence of a host header, and an undecodable
header value is replaced by "unknown" (to_str().unwrap_or("unknown")). -/
def metricsIncrements (chain : String) (responseCode : Option Nat)
    (hostHeader : Option (List Nat)) (method : String) : List CounterInc :=
  let code := responseCode.getD 0
  match hostHeader with
  | none => []
  | some bytes =>
    [{ chain := chain, host := (headerToStr bytes).getD "unknown",
       code := toString code, method := method }]

/-! ### Ethereum chain validator
src/service/chain_health_check.rs, eth_validator lines 204-230. -/

/-- The shape serde_json::from_slice::<EthJsonResponse> expects: jsonrpc and
result strings plus a numeric id (u64).  A response byte sequence is
represented by its parse outcome: none when it does not deserialize into
this shape (missing field or wrong type), some otherwise. -/
structure EthJsonResponse where
  jsonrpc : String
  id : Nat
  result : String
deriving DecidableEq

/-- Outcome of a validator run.  The error constructors carry the Custom(...)
message of the corresponding branch; panicked records a Rust panic. -/
inductive EthOutcome where
  | ok (tip : Nat)
  | invalidJson
  | invalidJsonrpc
  | invalidBlockNumber
  | panicked
deriving DecidableEq

/-- Rust byte-indexed string slicing s[i..]: the suffix from byte offset i,
none (panic) when i exceeds the byte length of s or falls inside a multi-byte
character. -/
def rustStrSliceFrom (s : String) (i : Nat) : Option String :=
  go s.data i
where
  go : List Char → Nat → Option String
    | cs, 0 => some (String.mk cs)
    | [], _ + 1 => none
    | c :: cs, n + 1 =>
      if c.utf8Size ≤ n + 1 then go cs (n + 1 - c.utf8Size) else none

/-- One hexadecimal digit (0-9, a-f, A-F). -/
def hexDigitVal (c : Char) : Option Nat :=
  if '0' ≤ c ∧ c ≤ '9' then some (c.toNat - '0'.toNat)
  else if 'a' ≤ c ∧ c ≤ 'f' then some (c.toNat - 'a'.toNat + 10)
  else if 'A' ≤ c ∧ c ≤ 'F' then some (c.toNat - 'A'.toNat + 10)
  else none

/-- Accumulate base-16 digits; none on the first non-digit. -/
def parseHexDigits : List Char → Nat → Option Nat
  | [], acc => some acc
  | c :: cs, acc =>
    match hexDigitVal c with
    | some d => parseHexDigits cs (acc * 16 + d)
    | none => none

/-- u64::from_str_radix(s, 16): an optional leading +, then a non-empty run of
hex digits; fails on an empty string, a stray sign, a non-digit, or a value
that does not fit in 64 bits.  (Rust errors out during accumulation on
overflow; checking the final value against 2^64 yields the same outcome.) -/
def u64FromStrRadix16 (s : String) : Option Nat :=
  let ds := match s.data with
    | '+' :: rest => rest
    | cs => cs
  match ds with
  | [] => none
  | _ =>
    match parseHexDigits ds 0 with
    | some n => if n < 2 ^ 64 then some n else none
    | none => none

/-- eth_validator: parse failure is invalid json; jsonrpc must be "2.0"; the
tip is u64::from_str_radix(&parsed.result[2..], 16), where the slice
parsed.result[2..] panics when result is shorter than two bytes. -/
def ethValidator (parsed : Option EthJsonResponse) : EthOutcome :=
  match parsed with
  | none => .invalidJson
  | some p =>
    if p.jsonrpc ≠ "2.0" then .invalidJsonrpc
    else
      match rustStrSliceFrom p.result 2 with
      | none => .panicked
      | some hex =>
        match u64FromStrRadix16 hex with
        | none => .invalidBlockNumber
        | some n => .ok n

/-! ### Unify demultiplexer
src/app/unify_proxy_app.rs, UnifyProxyApp::upstream_peer, and
src/config.rs, UnifyProxyConfig::get_port. -/

/-- src/config.rs: chain_type to (chain_name to port); HashMaps as association
lists. -/
structure UnifyProxyConfig where
  chain_ports : List (String × List (String × Nat))
  listen_port : Nat
deriving DecidableEq

/-- UnifyProxyConfig::get_port. -/
def getPort (cfg : UnifyProxyConfig) (chain_type chain_name : String) : Option Nat :=
  (cfg.chain_ports.lookup chain_type).bind (fun chains => chains.lookup chain_name)

/-- Errors of the unify path (Custom messages "Invalid request path",
"No matching chain found", "Invalid URI"). -/
inductive UnifyError where
  | invalidRequestPath
  | noMatchingChain
deriving DecidableEq

/-- The outcome of UnifyProxyApp::upstream_peer: the peer address parts and the
rewritten request path and host header. -/
structure UnifyResult where
  host : String
  port : Nat
  tls : Bool
  newPath : String
deriving DecidableEq

/-- Rust str::trim_start_matches('/'): drop every leading slash. -/
def trimLeadingSlashes (s : String) : String :=
  String.mk (s.data.dropWhile (fun c => c = '/'))

/-- Rust str::split('/') on the characters of a string: cut at every slash,
keeping empty pieces, so "a//b" gives ["a", "", "b"] and "" gives [""]. -/
def splitSlash : List Char → List (List Char)
  | [] => [[]]
  | c :: cs =>
    let rest := splitSlash cs
    if c = '/' then [] :: rest
    else
      match rest with
      | r :: rs => (c :: r) :: rs
      | [] => [[c]]

/-- path.trim_start_matches('/').split('/') as a list of strings. -/
def pathSegments (path : String) : List String :=
  (splitSlash (trimLeadingSlashes path).data).map (fun cs => String.mk cs)

/-- UnifyProxyApp::upstream_peer on the request path.  The segments are
path.trim_start_matches('/').split('/'); fewer than two is an invalid request
path; an unknown (chain_type, chain_name) is NoMatchingChain; otherwise the
peer is 127.0.0.1:port without TLS, the host header is rewritten to 127.0.0.1
and the path becomes "/" ++ the joined tail when a tail exists, the original
path otherwise.  (The Uri::builder().path_and_query(..) error branch is not
modelled: its input is a slash-prefixed suffix of a path that the http crate
already parsed, hence parses again.) -/
def unifyUpstreamPeer (cfg : UnifyProxyConfig) (path : String) :
    Except UnifyError UnifyResult :=
  match pathSegments path with
  | chainType :: chainName :: tail =>
    match getPort cfg chainType chainName with
    | none => .error .noMatchingChain
    | some port =>
      let newPath :=
        if tail.isEmpty then path
        else "/" ++ String.intercalate "/" tail
      .ok { host := "127.0.0.1", port := port, tls := false, newPath := newPath }
  | _ => .error .invalidRequestPath

/-! ### Peer construction and options
src/app/proxy_base.rs lines 90-108 and src/app/config.rs DEFAULT_PEER_OPTIONS. -/

/-- pingora ALPN selection. -/
inductive Alpn where
  | H1
  | H2
deriving DecidableEq

/-- pingora TcpKeepalive; durations in seconds. -/
structure TcpKeepalive where
  count : Nat
  interval : Nat
  idle : Nat
deriving DecidableEq

/-- The pingora PeerOptions fields that DEFAULT_PEER_OPTIONS sets to non-default
values, plus alpn; durations in seconds, buffer size in bytes.  The remaining
fields (bind_to, idle_timeout, alternative_cn, ca, h2_ping_interval,
extra_proxy_headers, curves, tracer, dscp, tcp_fast_open, custom_l4) are left
at their constructor values by every code path and are omitted. -/
structure PeerOptions where
  verify_hostname : Bool
  read_timeout : Option Nat
  connection_timeout : Option Nat
  tcp_recv_buf : Option Nat
  tcp_keepalive : Option TcpKeepalive
  total_connection_timeout : Option Nat
  write_timeout : Option Nat
  verify_cert : Bool
  alpn : Alpn
  max_h2_streams : Nat
  second_keyshare : Bool
deriving DecidableEq

/-- src/app/config.rs, DEFAULT_PEER_OPTIONS. -/
def DEFAULT_PEER_OPTIONS : PeerOptions :=
  { verify_hostname := true
    read_timeout := some 30
    connection_timeout := some 30
    tcp_recv_buf := some (512 * 1024)
    tcp_keepalive := some { count := 5, interval := 10, idle := 30 }
    total_connection_timeout := some 5
    write_timeout := some 5
    verify_cert := false
    alpn := .H1
    max_h2_streams := 5
    second_keyshare := true }

/-- The options HttpPeer::new installs before the app touches them.  This value
comes from the proxy runtime (pingora PeerOptions::new), not from this
repository: no timeouts, certificate verification on, ALPN H1, a single h2
stream.  The grpc branch of upstream_peer keeps these and overrides only alpn. -/
def pingoraNewPeerOptions : PeerOptions :=
  { verify_hostname := true
    read_timeout := none
    connection_timeout := none
    tcp_recv_buf := none
    tcp_keepalive := none
    total_connection_timeout := none
    write_timeout := none
    verify_cert := true
    alpn := .H1
    max_h2_streams := 1
    second_keyshare := true }

/-- The constructed upstream peer: address, TLS flag, SNI and options. -/
structure HttpPeerModel where
  addr : String
  tls : Bool
  sni : String
  options : PeerOptions
deriving DecidableEq

/-- src/app/proxy_base.rs lines 90-104: HttpPeer::new(proxy_addr, proxy_tls,
proxy_hostname); then for a grpc listener only peer.options.alpn = ALPN::H2 is
set (the template assignment is the commented-out line 99), while every other
listener gets peer.options = DEFAULT_PEER_OPTIONS.  newOptions is the options
value HttpPeer::new produced. -/
def buildPeer (selected : ChainProxyConfig) (protocol : String)
    (newOptions : PeerOptions) : HttpPeerModel :=
  { addr := selected.proxy_addr
    tls := selected.proxy_tls
    sni := selected.proxy_hostname
    options :=
      if protocol = "grpc" then { newOptions with alpn := .H2 }
      else DEFAULT_PEER_OPTIONS }

/-! ### Concrete sample values, used by witnesses and counterexamples. -/

/-- Sample upstream A (priority 1, block gap 5), as in spec scenario S1. -/
def cfgA : ChainProxyConfig :=
  { proxy_addr := "node-a.example.com:443"
    proxy_tls := true
    proxy_hostname := "node-a.example.com"
    proxy_uri := "https://node-a.example.com/eth"
    priority := 1
    path := "/health"
    method := "POST"
    request_body := none
    interval := 20
    block_gap := 5
    chain_type := "ethereum"
    log_request_detail := false
    username := none
    password := none
    custom_headers := none }

/-- Sample upstream B (priority 1, block gap 5), lagging node of scenario S1. -/
def cfgB : ChainProxyConfig :=
  { cfgA with
    proxy_addr := "node-b.example.com:443"
    proxy_hostname := "node-b.example.com"
    proxy_uri := "https://node-b.example.com/eth" }

/-- Sample upstream C (priority 0), lower-priority node of scenario S2. -/
def cfgC : ChainProxyConfig :=
  { cfgA with
    proxy_addr := "node-c.example.com:443"
    proxy_hostname := "node-c.example.com"
    proxy_uri := "https://node-c.example.com/eth"
    priority := 0 }

/-- Sample tips snapshot: A at 100, B at 94 (gap 6 > block_gap 5). -/
def sampleTips : List (String × Nat) :=
  [("https://node-a.example.com/eth", 100), ("https://node-b.example.com/eth", 94)]

/-- Sample special-method route with method_name "foo". -/
def routeFoo : SpecialMethodConfig :=
  { method_name := "foo", nodes := [cfgB] }

/-- Sample special-method route with method_name "eth_call". -/
def routeEth : SpecialMethodConfig :=
  { method_name := "eth_call", nodes := [cfgA] }

/-- Sample common-mode health state marking node A unhealthy. -/
def unhealthyState : NodeState :=
  { node_name := "common1"
    health_status := [("https://node-a.example.com/eth", false)] }

/-- Sample unify table: (ethereum, mainnet) listens on port 1090 (scenario S6). -/
def unifyCfg : UnifyProxyConfig :=
  { chain_ports := [("ethereum", [("mainnet", 1090)])], listen_port := 9999 }

/-! ### Helper lemmas about listMax (Iterator::max). -/

theorem foldl_max_le_init {α : Type} [LinearOrder α] :
    ∀ (xs : List α) (a : α), a ≤ xs.foldl max a := by
  intro xs
  induction xs with
  | nil => intro a; exact le_refl a
  | cons x xs ih =>
    intro a
    exact le_trans (le_max_left a x) (ih (max a x))

theorem le_foldl_max {α : Type} [LinearOrder α] :
    ∀ (xs : List α) (a b : α), b ∈ xs → b ≤ xs.foldl max a := by
  intro xs
  induction xs with
  | nil => intro a b hb; cases hb
  | cons x xs ih =>
    intro a b hb
    rcases List.mem_cons.mp hb with h | h
    · subst h
      exact le_trans (le_max_right a b) (foldl_max_le_init xs (max a b))
    · exact ih (max a x) b h

theorem foldl_max_eq_or_mem {α : Type} [LinearOrder α] :
    ∀ (xs : List α) (a : α), xs.foldl max a = a ∨ xs.foldl max a ∈ xs := by
  intro xs
  induction xs with
  | nil => intro a; exact Or.inl rfl
  | cons x xs ih =>
    intro a
    rcases ih (max a x) with h | h
    · rcases max_choice a x with hm | hm
      · exact Or.inl (by rw [List.foldl_cons, h, hm])
      · refine Or.inr ?_
        rw [List.foldl_cons, h, hm]
        exact List.mem_cons_self x xs
    · exact Or.inr (List.mem_cons_of_mem x h)

theorem listMax_le {α : Type} [LinearOrder α] {l : List α} {m : α}
    (h : listMax l = some m) : ∀ b ∈ l, b ≤ m := by
  intro b hb
  cases l with
  | nil => cases hb
  | cons x xs =>
    have hm : xs.foldl max x = m := by
      simpa [listMax] using h
    rcases List.mem_cons.mp hb with h1 | h1
    · subst h1; rw [← hm]; exact foldl_max_le_init xs b
    · rw [← hm]; exact le_foldl_max xs x b h1

theorem listMax_mem {α : Type} [LinearOrder α] {l : List α} {m : α}
    (h : listMax l = some m) : m ∈ l := by
  cases l with
  | nil => simp [listMax] at h
  | cons x xs =>
    have hm : xs.foldl max x = m := by
      simpa [listMax] using h
    rcases foldl_max_eq_or_mem xs x with h1 | h1
    · rw [← hm, h1]; exact List.mem_cons_self x xs
    · rw [← hm]; exact List.mem_cons_of_mem x h1

theorem listMax_isSome {α : Type} [LinearOrder α] {l : List α} (h : l ≠ []) :
    ∃ m, listMax l = some m := by
  cases l with
  | nil => exact absurd rfl h
  | cons x xs => exact ⟨xs.foldl max x, rfl⟩

/-! ### Helper lemmas about selectNode. -/

theorem tipEligible_iff (tips : List (String × Nat)) (maxBN blockRange : Nat)
    (c : ChainProxyConfig) :
    tipEligible tips maxBN blockRange c = true ↔
      ∃ t, tips.lookup c.proxy_uri = some t ∧ maxBN - t ≤ blockRange := by
  unfold tipEligible
  cases h : tips.lookup c.proxy_uri with
  | none => simp [h]
  | some t => simp [h]

theorem selectNode_sound {eligible : List ChainProxyConfig} {oracle : Nat}
    {c : ChainProxyConfig} (h : selectNode eligible oracle = some c) :
    c ∈ eligible ∧ listMax (eligible.map (fun x => x.priority)) = some c.priority := by
  unfold selectNode at h
  cases hm : listMax (eligible.map (fun x => x.priority)) with
  | none => rw [hm] at h; cases h
  | some maxP =>
    rw [hm] at h
    simp only at h
    have hmem : c ∈ eligible.filter (fun x => decide (x.priority = maxP)) := by
      by_cases hlen :
          (eligible.filter (fun x => decide (x.priority = maxP))).length = 1
      · rw [if_pos hlen] at h
        exact List.mem_of_mem_head? h
      · rw [if_neg hlen] at h
        exact List.getElem?_mem h
    have hc := List.mem_filter.mp hmem
    have hp : c.priority = maxP := by simpa using hc.2
    exact ⟨hc.1, by rw [hp]; try exact hm⟩

theorem selectNode_total (eligible : List ChainProxyConfig) (oracle : Nat)
    (h : eligible ≠ []) : ∃ c, selectNode eligible oracle = some c := by
  obtain ⟨maxP, hm⟩ := listMax_isSome (l := eligible.map (fun x => x.priority))
    (by simpa using h)
  have hmem : maxP ∈ eligible.map (fun x => x.priority) := listMax_mem hm
  obtain ⟨d, hd, hdp⟩ := List.mem_map.mp hmem
  have hbne : eligible.filter (fun x => decide (x.priority = maxP)) ≠ [] := by
    intro hnil
    have : d ∈ eligible.filter (fun x => decide (x.priority = maxP)) :=
      List.mem_filter.mpr ⟨hd, by simpa using hdp⟩
    rw [hnil] at this
    cases this
  unfold selectNode
  rw [hm]
  simp only
  by_cases hlen : (eligible.filter (fun x => decide (x.priority = maxP))).length = 1
  · rw [if_pos hlen]
    cases hb : eligible.filter (fun x => decide (x.priority = maxP)) with
    | nil => exact absurd hb hbne
    | cons b bs => exact ⟨b, rfl⟩
  · rw [if_neg hlen]
    have hpos : 0 < (eligible.filter (fun x => decide (x.priority = maxP))).length :=
      List.length_pos.mpr hbne
    have hlt : oracle % (eligible.filter (fun x => decide (x.priority = maxP))).length <
        (eligible.filter (fun x => decide (x.priority = maxP))).length :=
      Nat.mod_lt _ hpos
    exact ⟨_, List.getElem?_eq_getElem hlt⟩

theorem selectNode_singleton {eligible : List ChainProxyConfig} {u : ChainProxyConfig}
    {maxP : Int} (hm : listMax (eligible.map (fun x => x.priority)) = some maxP)
    (hb : eligible.filter (fun x => decide (x.priority = maxP)) = [u]) :
    ∀ oracle, selectNode eligible oracle = some u := by
  intro oracle
  unfold selectNode
  rw [hm]
  simp [hb]

/-! ### Claim theorems -/

/-- Claim C1: on a chain listener, when the request is not taken over by the
special-method override, the selector copies the tips map and computes
max_tip; max_tip = 0 fails with the NoTipYet error and its static message;
otherwise a configured node is eligible exactly when its tip is present in
the copied map and max_tip - tip is at most the listener's block gap, and
every node the selector can return satisfies that bound; a node with an
absent or lagging tip is never the selected upstream. -/
theorem chain_selection_respects_block_gap
    (specials : List SpecialMethodConfig) (header : Option (List Nat))
    (hostConfigs : List ChainProxyConfig) (tips : List (String × Nat))
    (hov : getClustersBySpecialMethod specials header = .fallthrough)
    (_hcfg : hostConfigs ≠ []) :
    chainEligible specials header hostConfigs tips =
      some (getEligibleClustersChain hostConfigs tips) ∧
    (maxBlockNumber tips = 0 →
      getEligibleClustersChain hostConfigs tips = .error .noTipYet ∧
      SelectError.noTipYet.message =
        "No block number found, maybe health check is unavailable or system is starting") ∧
    (∀ elig, getEligibleClustersChain hostConfigs tips = .ok elig →
      (∀ c, c ∈ elig ↔ c ∈ hostConfigs ∧
        ∃ t, tips.lookup c.proxy_uri = some t ∧
          maxBlockNumber tips - t ≤ chainBlockGap hostConfigs) ∧
      (∀ oracle c, selectNode elig oracle = some c →
        ∃ t, tips.lookup c.proxy_uri = some t ∧
          maxBlockNumber tips - t ≤ chainBlockGap hostConfigs)) := by
  refine ⟨by simp [chainEligible, hov], ?_, ?_⟩
  · intro h0
    exact ⟨by simp [getEligibleClustersChain, h0], rfl⟩
  · intro elig helig
    have hmem : ∀ c, c ∈ elig ↔ c ∈ hostConfigs ∧
        ∃ t, tips.lookup c.proxy_uri = some t ∧
          maxBlockNumber tips - t ≤ chainBlockGap hostConfigs := by
      intro c
      unfold getEligibleClustersChain at helig
      by_cases h0 : maxBlockNumber tips = 0
      · simp [h0] at helig
      · simp only [h0, if_false] at helig
        by_cases hemp : (hostConfigs.filter
            (tipEligible tips (maxBlockNumber tips) (chainBlockGap hostConfigs))).isEmpty
        · simp [hemp] at helig
        · simp [hemp] at helig
          subst helig
          rw [List.mem_filter, tipEligible_iff]
    refine ⟨hmem, ?_⟩
    intro oracle c hsel
    exact ((hmem c).mp (selectNode_sound hsel).1).2

/-- Claim C1 witness: spec scenario S1 (nodes A and B, tips 100 and 94,
block gap 5): B lags by 6 and is excluded, A is the only eligible node and
the one every random outcome selects. -/
theorem chain_selection_respects_block_gap_witness :
    getClustersBySpecialMethod [] none = SpecialLookup.fallthrough ∧
    ([cfgA, cfgB] : List ChainProxyConfig) ≠ [] ∧
    chainEligible [] none [cfgA, cfgB] sampleTips =
      some (getEligibleClustersChain [cfgA, cfgB] sampleTips) ∧
    getEligibleClustersChain [cfgA, cfgB] sampleTips = .ok [cfgA] ∧
    selectNode [cfgA] 0 = some cfgA := by
  refine ⟨rfl, by decide, ?_, rfl, by decide⟩
  exact (chain_selection_respects_block_gap [] none [cfgA, cfgB] sampleTips rfl
    (by decide)).1

/-- Claim C2: whenever the eligible set is non-empty, the node the selector
returns always exists, lies in the eligible set, and carries the maximum
priority over the eligible set (a lower-priority node is never chosen while a
higher-priority one is eligible); and when the maximum-priority bucket is a
singleton that node is chosen deterministically, for every random outcome. -/
theorem priority_bucket_selection (eligible : List ChainProxyConfig) (oracle : Nat)
    (h : eligible ≠ []) :
    ∃ c, selectNode eligible oracle = some c ∧ c ∈ eligible ∧
      (∀ d ∈ eligible, d.priority ≤ c.priority) ∧
      (∀ u, eligible.filter (fun x => decide (x.priority = c.priority)) = [u] →
        ∀ oracle2, selectNode eligible oracle2 = some u) := by
  obtain ⟨c, hc⟩ := selectNode_total eligible oracle h
  obtain ⟨hmem, hmax⟩ := selectNode_sound hc
  refine ⟨c, hc, hmem, ?_, ?_⟩
  · intro d hd
    exact listMax_le hmax d.priority (List.mem_map.mpr ⟨d, hd, rfl⟩)
  · intro u hu oracle2
    exact selectNode_singleton hmax hu oracle2

/-- Claim C2 witness: with eligible set A (priority 1) and C (priority 0), the
selection at any oracle value returns a maximal-priority node, and the
singleton top bucket forces node A. -/
theorem priority_bucket_selection_witness :
    ([cfgA, cfgC] : List ChainProxyConfig) ≠ [] ∧
    ∃ c, selectNode [cfgA, cfgC] 7 = some c ∧ c ∈ [cfgA, cfgC] ∧
      (∀ d ∈ [cfgA, cfgC], d.priority ≤ c.priority) ∧
      (∀ u, [cfgA, cfgC].filter (fun x => decide (x.priority = c.priority)) = [u] →
        ∀ oracle2, selectNode [cfgA, cfgC] oracle2 = some u) :=
  ⟨by decide, priority_bucket_selection [cfgA, cfgC] 7 (by decide)⟩

/-- Claim C3 (amended): for a request whose X-Proxy-Jsonrpc-Method header value
decodes as visible ASCII, the override fires exactly when the special-method
list contains a route whose method_name equals the decoded value exactly
(case-sensitive, the first such route wins), and then the eligible set is that
route's node list with the tip-gap filter skipped; with no exact match, an
absent header, or an empty special-method list, selection falls through to the
normal eligibility filter.  The amendment restricts the original claim to
decodable header values: on undecodable bytes the code panics instead of
falling through (see the counterexample). -/
theorem special_method_exact_match (specials : List SpecialMethodConfig)
    (bytes : List Nat) (m : String) (hm : headerToStr bytes = some m) :
    (∀ route, specials.find? (fun r => r.method_name = m) = some route →
      getClustersBySpecialMethod specials (some bytes) = .override route.nodes ∧
      route ∈ specials ∧ route.method_name = m ∧
      ∀ hostConfigs tips, chainEligible specials (some bytes) hostConfigs tips =
        some (.ok route.nodes)) ∧
    ((∀ route ∈ specials, route.method_name ≠ m) →
      getClustersBySpecialMethod specials (some bytes) = .fallthrough) ∧
    ((∃ route ∈ specials, route.method_name = m) →
      ∃ route, specials.find? (fun r => r.method_name = m) = some route) ∧
    getClustersBySpecialMethod specials none = .fallthrough ∧
    getClustersBySpecialMethod [] (some bytes) = .fallthrough := by
  refine ⟨?_, ?_, ?_, rfl, rfl⟩
  · intro route hfind
    have hne : specials.isEmpty = false := by
      cases specials with
      | nil => simp at hfind
      | cons s ss => rfl
    have hres : getClustersBySpecialMethod specials (some bytes) =
        .override route.nodes := by
      simp [getClustersBySpecialMethod, hne, hm, hfind]
    refine ⟨hres, List.mem_of_find?_eq_some hfind, ?_, ?_⟩
    · have := List.find?_some hfind
      simpa using this
    · intro hostConfigs tips
      unfold chainEligible
      rw [hres]
  · intro hnone
    have hfind : specials.find? (fun r => r.method_name = m) = none := by
      rw [List.find?_eq_none]
      intro route hr
      simpa using hnone route hr
    cases he : specials.isEmpty
    · simp [getClustersBySpecialMethod, he, hm, hfind]
    · simp [getClustersBySpecialMethod, he]
  · intro ⟨route, hr, hrm⟩
    have : (specials.find? (fun r => r.method_name = m)).isSome := by
      rw [List.find?_isSome]
      exact ⟨route, hr, by simpa using hrm⟩
    exact Option.isSome_iff_exists.mp this

/-- Claim C3 counterexample: with a non-empty special-method list and a header
value that is not visible ASCII (byte 200), the original claim requires
selection to continue with the normal eligibility filter, but
get_clusters_by_special_method unwraps the failed to_str conversion and
panics; the eligibility computation never completes. -/
theorem special_method_undecodable_header_no_fallthrough :
    getClustersBySpecialMethod [routeFoo] (some [200]) = .panicked ∧
    SpecialLookup.panicked ≠ .fallthrough ∧
    chainEligible [routeFoo] (some [200]) [cfgA, cfgB] sampleTips = none := by
  refine ⟨rfl, by decide, rfl⟩

/-- Claim C3 witness: header value the bytes of the string "foo": the route
with method_name "foo" is matched exactly and its node list becomes the
eligible set with no tip filtering, while the bytes of "fo" (a proper prefix)
fall through. -/
theorem special_method_exact_match_witness :
    headerToStr [102, 111, 111] = some "foo" ∧
    getClustersBySpecialMethod [routeFoo] (some [102, 111, 111]) =
      .override [cfgB] ∧
    chainEligible [routeFoo] (some [102, 111, 111]) [cfgA, cfgB] sampleTips =
      some (.ok [cfgB]) ∧
    getClustersBySpecialMethod [routeFoo] (some [102, 111]) = .fallthrough := by
  have hm : headerToStr [102, 111, 111] = some "foo" := by decide
  have h1 := (special_method_exact_match [routeFoo] [102, 111, 111] "foo" hm).1
    routeFoo (by decide)
  have h2 := (special_method_exact_match [routeFoo] [102, 111] "fo" (by decide)).2.1
    (by decide)
  exact ⟨hm, by simpa [routeFoo] using h1.1, by simpa [routeFoo] using h1.2.2.2 [cfgA, cfgB] sampleTips, h2⟩

/-- Claim C4 (amended): on a common listener, when the request is not taken
over by the special-method override, the eligible set is the entire configured
node list bucketed by priority (an empty configuration fails with
NoEligibleCluster); the NodeState health flags are not consulted by selection,
so a configured node remains eligible whatever any health state records for
it, and in particular when its flag is false or absent.  (Health-based
exclusion is delegated to the runtime load balancer, not performed here.) -/
theorem common_eligible_all_configured (specials : List SpecialMethodConfig)
    (header : Option (List Nat)) (hostConfigs : List ChainProxyConfig)
    (hov : getClustersBySpecialMethod specials header = .fallthrough)
    (h : hostConfigs ≠ []) :
    commonEligible specials header hostConfigs = some (.ok hostConfigs) ∧
    ∀ (state : NodeState), ∀ c ∈ hostConfigs,
      state.health_status.lookup c.proxy_uri ≠ some true →
      ∃ elig, commonEligible specials header hostConfigs = some (.ok elig) ∧
        c ∈ elig ∧ c ∉ specEligibleCommon hostConfigs state := by
  have hne : hostConfigs.isEmpty = false := by
    cases hostConfigs with
    | nil => exact absurd rfl h
    | cons x xs => rfl
  have hres : commonEligible specials header hostConfigs = some (.ok hostConfigs) := by
    simp [commonEligible, hov, getEligibleClustersCommon, hne]
  refine ⟨hres, ?_⟩
  intro state c hc hflag
  refine ⟨hostConfigs, hres, hc, ?_⟩
  intro habs
  exact hflag (of_decide_eq_true (List.mem_filter.mp habs).2)

/-- Claim C4 counterexample: node A is configured, the shared NodeState marks
it unhealthy, yet the common-mode eligibility (which never reads NodeState)
returns it; the set the original claim prescribes is empty. -/
theorem common_eligible_ignores_health :
    getEligibleClustersCommon [cfgA] = .ok [cfgA] ∧
    unhealthyState.health_status.lookup cfgA.proxy_uri = some false ∧
    specEligibleCommon [cfgA] unhealthyState = [] := by
  refine ⟨rfl, by decide, by decide⟩

/-- Claim C4 witness: the amended theorem at the concrete configuration
[cfgA] with no special routes: selection returns all of [cfgA], and node A is
eligible despite its false health flag. -/
theorem common_eligible_all_configured_witness :
    commonEligible [] none [cfgA] = some (.ok [cfgA]) ∧
    ∃ elig, commonEligible [] none [cfgA] = some (.ok elig) ∧
      cfgA ∈ elig ∧ cfgA ∉ specEligibleCommon [cfgA] unhealthyState := by
  have h := common_eligible_all_configured [] none [cfgA] rfl (by decide)
  exact ⟨h.1, h.2 unhealthyState cfgA (by decide) (by decide)⟩

/-- Claim C5: the URI rewrite of upstream_peer: for a jsonrpc listener the new
URI is exactly the node's proxy_uri, independent of the incoming path and
query (both are discarded); for an http or grpc listener the new URI is
proxy_uri when the incoming path is empty or "/", proxy_uri concatenated with
the incoming path otherwise, and in either case a present query string is
re-appended as ?query. -/
theorem uri_rewrite_by_protocol (protocol proxy_uri incomingPath : String)
    (query : Option String) (hp : protocol = "http" ∨ protocol = "grpc") :
    (∀ p2 q2, rewriteUri "jsonrpc" proxy_uri incomingPath query = proxy_uri ∧
      rewriteUri "jsonrpc" proxy_uri p2 q2 = proxy_uri) ∧
    ((incomingPath = "" ∨ incomingPath = "/") →
      rewriteUri protocol proxy_uri incomingPath none = proxy_uri) ∧
    (¬(incomingPath = "" ∨ incomingPath = "/") →
      rewriteUri protocol proxy_uri incomingPath none = proxy_uri ++ incomingPath) ∧
    (∀ q, rewriteUri protocol proxy_uri incomingPath (some q) =
      rewriteUri protocol proxy_uri incomingPath none ++ "?" ++ q) := by
  have hne : protocol ≠ "jsonrpc" := by
    rcases hp with h | h <;> subst h <;> decide
  refine ⟨?_, ?_, ?_, ?_⟩
  · intro p2 q2
    constructor <;> simp [rewriteUri]
  · intro hpath
    simp [rewriteUri, hne, hpath]
  · intro hpath
    simp [rewriteUri, hne, hpath]
  · intro q
    by_cases hpath : incomingPath = "" ∨ incomingPath = "/" <;>
      simp [rewriteUri, hne, hpath]

/-- Claim C5 witness: scenario S5 flavored: a grpc listener with node prefix
https://h/v3 rewrites POST /pkg.Svc/M?x=1 to https://h/v3/pkg.Svc/M?x=1, a
jsonrpc listener discards path and query, and a root path maps to the bare
proxy_uri. -/
theorem uri_rewrite_by_protocol_witness :
    rewriteUri "jsonrpc" "https://h/v3" "/pkg.Svc/M" (some "x=1") = "https://h/v3" ∧
    rewriteUri "grpc" "https://h/v3" "/" none = "https://h/v3" ∧
    rewriteUri "grpc" "https://h/v3" "/pkg.Svc/M" none = "https://h/v3" ++ "/pkg.Svc/M" ∧
    rewriteUri "grpc" "https://h/v3" "/pkg.Svc/M" (some "x=1") =
      rewriteUri "grpc" "https://h/v3" "/pkg.Svc/M" none ++ "?" ++ "x=1" := by
  have h := uri_rewrite_by_protocol "grpc" "https://h/v3" "/pkg.Svc/M" (some "x=1")
    (Or.inr rfl)
  have hroot := uri_rewrite_by_protocol "grpc" "https://h/v3" "/" none (Or.inr rfl)
  exact ⟨(h.1 "/pkg.Svc/M" (some "x=1")).1, hroot.2.1 (Or.inr rfl),
    h.2.2.1 (by decide), h.2.2.2 "x=1"⟩

/-- Claim C6 (amended): one metrics call at request termination produces
exactly one proxy_result_counter increment when the request carries a Host
header, labelled with the chain name, the header value (or "unknown" when the
value does not decode as visible ASCII), the written response code (0 when no
response was written, i.e. on error), and the request method; a request
without a Host header produces no increment at all. -/
theorem metrics_increment_requires_host_header (chain method : String)
    (responseCode : Option Nat) (bytes : List Nat) :
    metricsIncrements chain responseCode (some bytes) method =
      [{ chain := chain, host := (headerToStr bytes).getD "unknown",
         code := toString (responseCode.getD 0), method := method }] ∧
    (metricsIncrements chain responseCode (some bytes) method).length = 1 ∧
    metricsIncrements chain none (some bytes) method =
      [{ chain := chain, host := (headerToStr bytes).getD "unknown",
         code := "0", method := method }] ∧
    metricsIncrements chain responseCode none method = [] := by
  refine ⟨rfl, rfl, rfl, ?_⟩
  cases responseCode <;> rfl

/-- Claim C6 counterexample: a request that terminates without a Host header
(for instance an HTTP/1.0 request failing before the selector inserts one)
increments no counter, where the original claim demands exactly one increment
with host "unknown". -/
theorem metrics_no_increment_without_host :
    metricsIncrements "ethereum" none none "POST" = [] ∧
    (metricsIncrements "ethereum" none none "POST").length ≠ 1 := by
  exact ⟨rfl, by decide⟩

/-- Claim C7 (code bug): the ethereum validator is not total: a response that
deserializes with jsonrpc "2.0" but whose result string is shorter than two
bytes (for example the empty string) drives parsed.result[2..] out of bounds
and the probe task panics instead of returning InvalidJson or InvalidTip.
On well-formed input the validator behaves as the claim states: hex parse of
the byte suffix result[2..], and every failure short of the slice panic is an
error value (and the pure model is deterministic by construction). -/
theorem eth_validator_short_result_panics :
    ethValidator (some { jsonrpc := "2.0", id := 1, result := "" }) =
      .panicked ∧
    ethValidator (some { jsonrpc := "2.0", id := 1, result := "0" }) =
      .panicked ∧
    ethValidator (some { jsonrpc := "2.0", id := 1, result := "0x1f" }) = .ok 31 ∧
    ethValidator none = .invalidJson ∧
    ethValidator (some { jsonrpc := "1.0", id := 1, result := "0x1f" }) =
      .invalidJsonrpc ∧
    ethValidator (some { jsonrpc := "2.0", id := 1, result := "0xzz" }) =
      .invalidBlockNumber ∧
    ethValidator (some { jsonrpc := "2.0", id := 1, result := "0x" }) =
      .invalidBlockNumber := by
  refine ⟨rfl, rfl, by decide, rfl, by decide, by decide, rfl⟩

/-- Claim C8: the unify listener fails a path with fewer than two segments
with the invalid-request-path error; with segments chain_type, chain_name and
a tail, an unmapped (chain_type, chain_name) fails with NoMatchingChain, and a
mapped port produces the upstream 127.0.0.1:port with TLS disabled, the Host
header rewritten to 127.0.0.1, and the path replaced by "/" and the joined
tail when a tail exists and kept unchanged otherwise. -/
theorem unify_demux (cfg : UnifyProxyConfig) (path : String) :
    ((pathSegments path).length < 2 →
      unifyUpstreamPeer cfg path = .error .invalidRequestPath) ∧
    (∀ chainType chainName tail,
      pathSegments path = chainType :: chainName :: tail →
      (getPort cfg chainType chainName = none →
        unifyUpstreamPeer cfg path = .error .noMatchingChain) ∧
      (∀ port, getPort cfg chainType chainName = some port →
        unifyUpstreamPeer cfg path =
          .ok { host := "127.0.0.1", port := port, tls := false,
                newPath := if tail.isEmpty then path
                           else "/" ++ String.intercalate "/" tail })) := by
  constructor
  · intro hlen
    unfold unifyUpstreamPeer
    cases hs : pathSegments path with
    | nil => rfl
    | cons a rest =>
      cases rest with
      | nil => rfl
      | cons b t =>
        rw [hs] at hlen
        simp at hlen
        omega
  · intro chainType chainName tail hs
    constructor
    · intro hport
      simp [unifyUpstreamPeer, hs, hport]
    · intro port hport
      simp [unifyUpstreamPeer, hs, hport]

/-- Claim C8 witness: scenario S6: GET /ethereum/mainnet/health with
(ethereum, mainnet) mapped to 1090 forwards to 127.0.0.1:1090 without TLS and
path /health; /ethereum/unknown is NoMatchingChain; /ethereum alone is an
invalid request path. -/
theorem unify_demux_witness :
    pathSegments "/ethereum/mainnet/health" = ["ethereum", "mainnet", "health"] ∧
    getPort unifyCfg "ethereum" "mainnet" = some 1090 ∧
    unifyUpstreamPeer unifyCfg "/ethereum/mainnet/health" =
      .ok { host := "127.0.0.1", port := 1090, tls := false, newPath := "/health" } ∧
    unifyUpstreamPeer unifyCfg "/ethereum/unknown" = .error .noMatchingChain ∧
    unifyUpstreamPeer unifyCfg "/ethereum" = .error .invalidRequestPath := by
  have hsplit : pathSegments "/ethereum/mainnet/health" =
      ["ethereum", "mainnet", "health"] := by decide
  have h := ((unify_demux unifyCfg "/ethereum/mainnet/health").2
    "ethereum" "mainnet" ["health"] hsplit).2 1090 (by decide)
  have h2 := ((unify_demux unifyCfg "/ethereum/unknown").2
    "ethereum" "unknown" [] (by decide)).1 (by decide)
  have h3 := (unify_demux unifyCfg "/ethereum").1 (by decide)
  exact ⟨hsplit, by decide, by simpa using h, h2, h3⟩

/-- Claim C9 (amended): the constructed upstream peer always uses
(proxy_addr, tls = proxy_tls, sni = proxy_hostname).  A non-grpc listener
attaches the fixed section-6 template DEFAULT_PEER_OPTIONS, whose ALPN is H1.
A grpc listener does not attach the template: it keeps whatever options the
runtime peer constructor produced and overrides only the ALPN to H2. -/
theorem peer_construction (selected : ChainProxyConfig) (protocol : String)
    (newOptions : PeerOptions) :
    (buildPeer selected protocol newOptions).addr = selected.proxy_addr ∧
    (buildPeer selected protocol newOptions).tls = selected.proxy_tls ∧
    (buildPeer selected protocol newOptions).sni = selected.proxy_hostname ∧
    (protocol ≠ "grpc" →
      (buildPeer selected protocol newOptions).options = DEFAULT_PEER_OPTIONS ∧
      (buildPeer selected protocol newOptions).options.alpn = .H1) ∧
    (protocol = "grpc" →
      (buildPeer selected protocol newOptions).options =
        { newOptions with alpn := .H2 } ∧
      (buildPeer selected protocol newOptions).options.alpn = .H2) := by
  refine ⟨rfl, rfl, rfl, ?_, ?_⟩
  · intro hne
    constructor <;> simp [buildPeer, hne, DEFAULT_PEER_OPTIONS]
  · intro heq
    constructor <;> simp [buildPeer, heq]

/-- Claim C9 counterexample: for a grpc listener the peer options are the
runtime constructor's options with ALPN overridden to H2, which differ from
the section-6 template (no connection timeouts, certificate verification on,
a single h2 stream), so the grpc peer does not carry the fixed template the
claim prescribes. -/
theorem grpc_peer_options_not_template :
    (buildPeer cfgA "grpc" pingoraNewPeerOptions).options ≠
      { DEFAULT_PEER_OPTIONS with alpn := Alpn.H2 } ∧
    (buildPeer cfgA "grpc" pingoraNewPeerOptions).options =
      { pingoraNewPeerOptions with alpn := Alpn.H2 } ∧
    (buildPeer cfgA "grpc" pingoraNewPeerOptions).options.connection_timeout = none ∧
    ({ DEFAULT_PEER_OPTIONS with alpn := Alpn.H2 } : PeerOptions).connection_timeout =
      some 30 := by
  refine ⟨by decide, rfl, rfl, rfl⟩

/-- Claim C9 witness: a jsonrpc listener gets the full template with ALPN H1,
and a grpc listener gets ALPN H2, both on node A's address, TLS flag and
SNI. -/
theorem peer_construction_witness :
    (buildPeer cfgA "jsonrpc" pingoraNewPeerOptions).addr = cfgA.proxy_addr ∧
    (buildPeer cfgA "jsonrpc" pingoraNewPeerOptions).options = DEFAULT_PEER_OPTIONS ∧
    (buildPeer cfgA "jsonrpc" pingoraNewPeerOptions).options.alpn = Alpn.H1 ∧
    (buildPeer cfgA "grpc" pingoraNewPeerOptions).options.alpn = Alpn.H2 := by
  have h1 := peer_construction cfgA "jsonrpc" pingoraNewPeerOptions
  have h2 := peer_construction cfgA "grpc" pingoraNewPeerOptions
  exact ⟨h1.1, (h1.2.2.2.1 (by decide)).1, (h1.2.2.2.1 (by decide)).2,
    (h2.2.2.2.2 rfl).2⟩

/-- Claim C10 (code bug): totality of upstream selection fails on a listener
with special-method routes: a request whose X-Proxy-Jsonrpc-Method header
value contains a byte outside visible ASCII (here 0xFF) makes
HeaderValue::to_str fail, and get_clusters_by_special_method unwraps that
failure and panics, so selection completes with neither a peer nor a proxy
error, on both the chain path and the common path. -/
theorem special_method_selection_not_total :
    headerToStr [255] = none ∧
    getClustersBySpecialMethod [routeEth] (some [255]) = .panicked ∧
    chainEligible [routeEth] (some [255]) [cfgA, cfgB] sampleTips = none ∧
    commonEligible [routeEth] (some [255]) [cfgA, cfgB] = none := by
  refine ⟨rfl, rfl, rfl, rfl⟩

end ChainProxy
